import Mathlib

/-!
# CircleCI provider client: organization resolution, slug building, error classification

A shallow embedding of `circleci/client/client.go`.

* Go strings are Lean `String`s, sequences of characters; the comparison `s != ""` is
  `s ≠ ""`. The byte `/` is a character of its own in UTF-8 and part of no other, so
  splitting at `/` is the same on bytes and on characters.
* A Go result pair `(string, error)` is the Lean pair `String × error`, where
  `error` is `Option GoError` and `none` is Go's `nil`.
* `fmt.Sprintf("%s/%s/%s", a, b, c)` on string operands is `a ++ "/" ++ b ++ "/" ++ c`.
* Functions of other packages that `New` calls (`url.Parse`,
  `retryablehttp.NewClient`, `api.NewContextRestClient`, `rest.New`) are fields of an
  environment record `Env`, so every statement about `New` holds for all of them;
  `sampleEnv` is the environment of `url.Parse` and `api.NewContextRestClient` as
  their packages define them.
* A run-time panic is the result `none` of a function that returns an `Option`.
-/

namespace client

/-! ## Errors -/

/-- Modelled from the spec: `rest.HTTPError`, whose declaration lives in the `rest`
package: "a structured error value carrying a numeric HTTP status code". -/
structure HTTPError where
  Code : Int
  deriving DecidableEq, Repr

/-- Non-nil Go error values, by what `errors.As` with a target of type
`**rest.HTTPError` can see of them:
* `errorString`: an error of another type than `*rest.HTTPError`, without an `As` and
  without an `Unwrap` method, such as `errors.New` makes;
* `httpError`: a non-nil `*rest.HTTPError`, given by the value it points to;
* `nilHTTPError`: a nil `*rest.HTTPError` stored in the interface;
* `wrapError`: a wrapper with an `Unwrap() error` method and no `As` method, such as
  `fmt.Errorf` with one `%w` makes;
* `joinError`: a multi-error with an `Unwrap() []error` method and no `As` method,
  such as `errors.Join` or `fmt.Errorf` with several `%w` make;
* `asError`: an error of another type than `*rest.HTTPError` with an `As(any) bool`
  method. `As` gives, from the pointer the target holds when the method is called, the
  method's answer and the pointer the target holds afterwards; `errs` are the errors
  its `Unwrap` method gives, none if it has no such method.
Children that are nil are left out, as `errors.As` skips them; trees are finite and
methods return. -/
inductive GoError where
  | errorString (s : String)
  | httpError (e : HTTPError)
  | nilHTTPError
  | wrapError (msg : String) (err : GoError)
  | joinError (errs : List GoError)
  | asError (As : Option HTTPError → Bool × Option HTTPError) (errs : List GoError)

/-- Go's `error` interface value: `none` is `nil`. -/
abbrev error := Option GoError

/-- Go's `errors.New(text)`. -/
def errorsNew (text : String) : error :=
  some (GoError.errorString text)

mutual
/-- The loop of `errors.As` on a non-nil error, `target` being the pointer the variable
behind the target holds (`none`: nil): whether a match was found, and the pointer the
variable holds afterwards. An error of type `*rest.HTTPError` is stored and matches;
otherwise its `As` method is asked; otherwise the search goes on in what `Unwrap`
gives, depth-first and in order. -/
def GoError.asTarget : GoError → Option HTTPError → Bool × Option HTTPError
  | .errorString _, target => (false, target)
  | .httpError e, _ => (true, some e)
  | .nilHTTPError, _ => (true, none)
  | .wrapError _ err, target => GoError.asTarget err target
  | .joinError errs, target => GoError.asTargetList errs target
  | .asError As errs, target =>
    if (As target).1 then (true, (As target).2)
    else GoError.asTargetList errs (As target).2
/-- The `for _, err := range x.Unwrap()` branch of `errors.As`: the first child in
which the search succeeds decides. -/
def GoError.asTargetList : List GoError → Option HTTPError → Bool × Option HTTPError
  | [], target => (false, target)
  | e :: rest, target =>
    if (GoError.asTarget e target).1 then (true, (GoError.asTarget e target).2)
    else GoError.asTargetList rest (GoError.asTarget e target).2
end

/-- The call `errors.As(err, &httpError)`: false on `nil`, otherwise the search above. -/
def errorsAs : error → Option HTTPError → Bool × Option HTTPError
  | none, target => (false, target)
  | some e, target => e.asTarget target

mutual
/-- The error tree of an error, in the order `errors.As` visits it: the error itself,
followed by the trees of what it unwraps to. -/
def GoError.tree : GoError → List GoError
  | .errorString s => [.errorString s]
  | .httpError e => [.httpError e]
  | .nilHTTPError => [.nilHTTPError]
  | .wrapError msg err => .wrapError msg err :: GoError.tree err
  | .joinError errs => .joinError errs :: GoError.treeList errs
  | .asError As errs => .asError As errs :: GoError.treeList errs
/-- The trees of the children of a multi-error, one after the other. -/
def GoError.treeList : List GoError → List GoError
  | [] => []
  | e :: rest => GoError.tree e ++ GoError.treeList rest
end

/-- The error tree of an `error` value; `nil` has an empty one. -/
def errorTree : error → List GoError
  | none => []
  | some e => e.tree

/-- The `HTTPError`s among a list of errors, in order. -/
def httpErrorsIn : List GoError → List HTTPError
  | [] => []
  | .httpError h :: rest => h :: httpErrorsIn rest
  | _ :: rest => httpErrorsIn rest

/-- The error tree of `err` contains an `HTTPError` whose status code is 404. -/
def containsNotFound (err : error) : Prop :=
  ∃ h : HTTPError, GoError.httpError h ∈ errorTree err ∧ h.Code = 404

/-- An error that has no `As` method and is not a nil `*rest.HTTPError`. -/
def GoError.plainNode : GoError → Bool
  | .nilHTTPError => false
  | .asError _ _ => false
  | _ => true

/-- No error of the tree of `err` has an `As` method or is a nil `*rest.HTTPError`. -/
def plainTree (err : error) : Bool :=
  (errorTree err).all GoError.plainNode

/-- An error that is not a `*rest.HTTPError` and has no `As` method. -/
def GoError.inertNode : GoError → Bool
  | .errorString _ => true
  | .wrapError _ _ => true
  | .joinError _ => true
  | _ => false

/-- An error all of whose wrappers have a single `Unwrap() error` and no `As` method,
around an `errors.New` error or a non-nil `*rest.HTTPError`: a chain. -/
def GoError.isChain : GoError → Bool
  | .errorString _ => true
  | .httpError _ => true
  | .wrapError _ err => GoError.isChain err
  | _ => false

/-- What `errors.As` answers when the `HTTPError`s it meets, in order, are `hs` and
nothing else matches. -/
def firstMatch (target : Option HTTPError) : List HTTPError → Bool × Option HTTPError
  | [] => (false, target)
  | h :: _ => (true, some h)

/-- A wrapping layer that is not an `HTTPError` and has no `As` method: a wrapper with
an `Unwrap() error` method and the message `msg`, or a multi-error that holds the
wrapped error between the errors `before` and `after`. -/
inductive Layer where
  | wrap (msg : String)
  | join (before after : List GoError)

/-- The layer placed around `err`. Around `nil`, `fmt.Errorf` gives a plain error and
`errors.Join` joins the other errors, or gives `nil` if there are none. -/
def Layer.apply : Layer → error → error
  | .wrap msg, none => some (.errorString msg)
  | .wrap msg, some e => some (.wrapError msg e)
  | .join before after, none =>
    match before ++ after with
    | [] => none
    | errs => some (.joinError errs)
  | .join before after, some e => some (.joinError (before ++ e :: after))

/-- The other errors a layer brings contain no `*rest.HTTPError` and no error with an
`As` method. -/
def Layer.inert : Layer → Bool
  | .wrap _ => true
  | .join before after => (GoError.treeList (before ++ after)).all GoError.inertNode

/-- The layers placed around `err`, the last of the list innermost. -/
def wrapLayers : List Layer → error → error
  | [], err => err
  | layer :: layers, err => layer.apply (wrapLayers layers err)

/-! ## The client -/

/-- The `Client` struct. The two sub-client handles are of types given from outside:
`Ctx` for `*api.ContextRestClient` and `R` for `*rest.Client`. -/
structure Client (Ctx R : Type) where
  contexts : Ctx
  rest : R
  vcs : String
  organization : String

/-- The `Config` struct. -/
structure Config where
  URL : String
  Token : String
  VCS : String
  Organization : String

/-- Method `Client.Organization`: the organization for a request. If an organization is
provided, that is returned; next, the one configured in the provider; if neither is
set, an error. -/
def Client.Organization {Ctx R : Type} (c : Client Ctx R) (org : String) : String × error :=
  if org ≠ "" then
    (org, none)
  else if c.organization ≠ "" then
    (c.organization, none)
  else
    ("", errorsNew "organization is required")

/-- Method `Client.Slug`: the project slug, from the VCS, the organization and the
project names. -/
def Client.Slug {Ctx R : Type} (c : Client Ctx R) (org project : String) : String × error :=
  match c.Organization org with
  | (_, some err) => ("", some err)
  | (o, none) => (c.vcs ++ "/" ++ o ++ "/" ++ project, none)

/-- Function `isNotFound`: the variable `httpError` starts as a nil pointer; if
`errors.As` answers true, the `Code` behind the pointer is compared with 404, which
panics (`none`) when the pointer is still nil; if it answers false, the result is
false without the pointer being read. -/
def isNotFound (err : error) : Option Bool :=
  if (errorsAs err none).1 then
    match (errorsAs err none).2 with
    | none => none
    | some httpError => if httpError.Code = 404 then some true else some false
  else
    some false

/-! ## Construction -/

/-- The fields of `url.URL` that `New` reads. -/
structure URL where
  Scheme : String
  Host : String
  Path : String
  deriving DecidableEq, Repr

/-- The backoff functions of `retryablehttp` a client can carry. -/
inductive Backoff where
  | DefaultBackoff
  | LinearJitterBackoff
  deriving DecidableEq, Repr

/-- The fields of `retryablehttp.Client` that `New` sets, durations in milliseconds,
and the retry ceiling `RetryMax`, which it leaves as `NewClient` made it; `Logger` is
`false` for a nil logger. -/
structure RetryableClient where
  Logger : Bool
  RetryMax : Nat
  RetryWaitMin : Nat
  RetryWaitMax : Nat
  Backoff : Backoff
  deriving DecidableEq, Repr

/-- The fields of `settings.Config` that `New` fills; `H` is the type of `*http.Client`. -/
structure SettingsConfig (H : Type) where
  Host : String
  RestEndpoint : String
  Token : String
  HTTPClient : H

/-- The functions of other packages that `New` calls. A Go function returning
`(value, error)` is an `Except`: it gives a value or an error. -/
structure Env (Ctx R H : Type) where
  urlParse : String → Except GoError URL
  NewClient : RetryableClient
  StandardClient : RetryableClient → H
  NewContextRestClient : SettingsConfig H → Except GoError Ctx
  restNew : String → String → String → R

/-- Function `New`: the client for a provider configuration, or no client and an error. -/
def New {Ctx R H : Type} (env : Env Ctx R H) (config : Config) :
    Option (Client Ctx R) × error :=
  match env.urlParse config.URL with
  | .error err => (none, some err)
  | .ok u =>
    let rootURL := u.Scheme ++ "://" ++ u.Host
    let retryableClient : RetryableClient :=
      { env.NewClient with
        Logger := false
        RetryWaitMin := 800
        RetryWaitMax := 1200
        Backoff := Backoff.LinearJitterBackoff }
    let httpClient := env.StandardClient retryableClient
    match env.NewContextRestClient
        { Host := rootURL, RestEndpoint := u.Path, Token := config.Token,
          HTTPClient := httpClient } with
    | .error err => (none, some err)
    | .ok contexts =>
      (some
        { rest := env.restNew rootURL u.Path config.Token
          contexts := contexts
          vcs := config.VCS
          organization := config.Organization },
       none)

/-! ## Observing a slug -/

/-- Go's `strings.Split(s, "/")`: the pieces of `s` between the separators. -/
def splitSlash (s : String) : List String :=
  (s.data.splitOn '/').map String.mk

/-! ## Package `net/url`

The function `url.Parse` of Go 1.22, for the fields `Scheme`, `Host` and `Path` of its
result. It works on the characters of the URL: the bytes it singles out are ASCII, and
a character outside ASCII is for it a run of bytes above `0x7f`, all treated alike.
Escapes are decoded to bytes and read back as UTF-8. Error messages quote characters
where Go quotes bytes. -/

namespace url

/-- The constants of type `encoding`. -/
inductive encoding where
  | encodePath
  | encodePathSegment
  | encodeHost
  | encodeZone
  | encodeUserPassword
  | encodeQueryComponent
  | encodeFragment
  deriving DecidableEq, Repr

/-- Go's `strings.Cut(s, sep)` for a separator of one byte: the text before the first
`sep`, the text after it, and whether `sep` was found. -/
def cut (sep : Char) : List Char → List Char × List Char × Bool
  | [] => ([], [], false)
  | c :: cs =>
    if c = sep then ([], cs, true)
    else ((c :: (cut sep cs).1), (cut sep cs).2.1, (cut sep cs).2.2)

/-- Go's `strings.LastIndex(s, sep)` for a separator of one byte, counted in
characters; `none` is `-1`. -/
def lastIndex (sep : Char) : List Char → Option Nat
  | [] => none
  | c :: cs =>
    match lastIndex sep cs with
    | some i => some (i + 1)
    | none => if c = sep then some 0 else none

/-- Go's `strings.Index(s, substr)`, counted in characters; `none` is `-1`. -/
def index (substr : List Char) : List Char → Option Nat
  | [] => if substr = [] then some 0 else none
  | c :: cs =>
    if substr.isPrefixOf (c :: cs) then some 0
    else (index substr cs).map (· + 1)

/-- Function `stringContainsCTLByte`: a byte below the space or the byte `0x7f`. -/
def stringContainsCTLByte (s : List Char) : Bool :=
  s.any fun b => b.toNat < 0x20 || b.toNat = 0x7f

/-- An ASCII letter. -/
def isLetter (c : Char) : Bool :=
  (97 ≤ c.toNat && c.toNat ≤ 122) || (65 ≤ c.toNat && c.toNat ≤ 90)

/-- An ASCII digit. -/
def isDigit (c : Char) : Bool :=
  48 ≤ c.toNat && c.toNat ≤ 57

/-- Function `ishex`. -/
def ishex (c : Char) : Bool :=
  isDigit c || (97 ≤ c.toNat && c.toNat ≤ 102) || (65 ≤ c.toNat && c.toNat ≤ 70)

/-- Function `unhex`. -/
def unhex (c : Char) : Nat :=
  if isDigit c then c.toNat - 48
  else if 97 ≤ c.toNat && c.toNat ≤ 102 then c.toNat - 97 + 10
  else if 65 ≤ c.toNat && c.toNat ≤ 70 then c.toNat - 65 + 10
  else 0

/-- Function `shouldEscape`. -/
def shouldEscape (c : Char) (mode : encoding) : Bool :=
  if isLetter c || isDigit c then false
  else if (mode = .encodeHost || mode = .encodeZone) &&
      c ∈ ['!', '$', '&', '\'', '(', ')', '*', '+', ',', ';', '=', ':', '[', ']', '<', '>', '"']
  then false
  else if c ∈ ['-', '_', '.', '~'] then false
  else if c ∈ ['$', '&', '+', ',', '/', ':', ';', '=', '?', '@'] then
    match mode with
    | .encodePath => c = '?'
    | .encodePathSegment => c = '/' || c = ';' || c = ',' || c = '?'
    | .encodeUserPassword => c = '@' || c = '/' || c = '?' || c = ':'
    | .encodeQueryComponent => true
    | .encodeFragment => false
    | _ => true
  else if mode = .encodeFragment && c ∈ ['!', '(', ')', '*'] then false
  else true

/-- The bytes of a character in UTF-8. -/
def utf8Bytes (c : Char) : List Nat :=
  let n := c.toNat
  if n < 0x80 then [n]
  else if n < 0x800 then [0xC0 + n / 0x40, 0x80 + n % 0x40]
  else if n < 0x10000 then [0xE0 + n / 0x1000, 0x80 + n / 0x40 % 0x40, 0x80 + n % 0x40]
  else [0xF0 + n / 0x40000, 0x80 + n / 0x1000 % 0x40, 0x80 + n / 0x40 % 0x40, 0x80 + n % 0x40]

/-- A continuation byte of UTF-8. -/
def isCont (b : Nat) : Bool := 0x80 ≤ b && b ≤ 0xBF


/-- Go's `utf8.DecodeRuneInString` on a non-empty byte string: the first character and
its width in bytes; a byte that starts no valid UTF-8 sequence is the character
`U+FFFD`, of width 1. -/
def decodeRune (bs : List Nat) : Char × Nat :=
  let b0 := bs.getD 0 0
  let b1 := bs.getD 1 0
  let b2 := bs.getD 2 0
  let b3 := bs.getD 3 0
  if b0 < 0x80 then (Char.ofNat b0, 1)
  else if 0xC2 ≤ b0 && b0 ≤ 0xDF && isCont b1 then
    (Char.ofNat ((b0 - 0xC0) * 0x40 + (b1 - 0x80)), 2)
  else if 0xE0 ≤ b0 && b0 ≤ 0xEF && isCont b1 && isCont b2 &&
      (b0 ≠ 0xE0 || 0xA0 ≤ b1) && (b0 ≠ 0xED || b1 ≤ 0x9F) then
    (Char.ofNat ((b0 - 0xE0) * 0x1000 + (b1 - 0x80) * 0x40 + (b2 - 0x80)), 3)
  else if 0xF0 ≤ b0 && b0 ≤ 0xF4 && isCont b1 && isCont b2 && isCont b3 &&
      (b0 ≠ 0xF0 || 0x90 ≤ b1) && (b0 ≠ 0xF4 || b1 ≤ 0x8F) then
    (Char.ofNat ((b0 - 0xF0) * 0x40000 + (b1 - 0x80) * 0x1000 + (b2 - 0x80) * 0x40
      + (b3 - 0x80)), 4)
  else (Char.ofNat 0xFFFD, 1)

/-- The characters of the first `n` runes of a byte string. -/
def utf8CharsUpTo : Nat → List Nat → List Char
  | 0, _ => []
  | _ + 1, [] => []
  | n + 1, b :: bs =>
    (decodeRune (b :: bs)).1 :: utf8CharsUpTo n ((b :: bs).drop (decodeRune (b :: bs)).2)

/-- The characters of a byte string, as a Go `range` loop gives them. -/
def utf8Chars (bs : List Nat) : List Char :=
  utf8CharsUpTo bs.length bs

/-- One character of `strconv.Quote`. -/
def quoteChar (c : Char) : List Char :=
  if c = '"' then ['\\', '"']
  else if c = '\\' then ['\\', '\\']
  else if c.toNat = 7 then ['\\', 'a']
  else if c.toNat = 8 then ['\\', 'b']
  else if c.toNat = 12 then ['\\', 'f']
  else if c.toNat = 10 then ['\\', 'n']
  else if c.toNat = 13 then ['\\', 'r']
  else if c.toNat = 9 then ['\\', 't']
  else if c.toNat = 11 then ['\\', 'v']
  else if c.toNat < 0x20 || c.toNat = 0x7f then
    ['\\', 'x', "0123456789abcdef".data.getD (c.toNat / 16) '0',
      "0123456789abcdef".data.getD (c.toNat % 16) '0']
  else [c]

/-- Go's `strconv.Quote`, for text whose characters outside ASCII are printable. -/
def quote (s : List Char) : String :=
  String.mk ('"' :: (s.flatMap quoteChar ++ ['"']))

/-- The loop of `getScheme` from the position after the characters `seen`: the scheme
and the rest, or the message of the error. -/
def getSchemeFrom (rawURL seen : List Char) : List Char → Except String (List Char × List Char)
  | [] => .ok ([], rawURL)
  | c :: cs =>
    if isLetter c then getSchemeFrom rawURL (seen ++ [c]) cs
    else if isDigit c || c = '+' || c = '-' || c = '.' then
      if seen = [] then .ok ([], rawURL) else getSchemeFrom rawURL (seen ++ [c]) cs
    else if c = ':' then
      if seen = [] then .error "missing protocol scheme" else .ok (seen, cs)
    else .ok ([], rawURL)

/-- Function `getScheme`. -/
def getScheme (rawURL : List Char) : Except String (List Char × List Char) :=
  getSchemeFrom rawURL [] rawURL

/-- The first loop of `unescape`: the escapes are well-formed and, in a host or a
zone, the bytes are allowed there. The error is the message of the `EscapeError` or
of the `InvalidHostError`. -/
def unescapeCheck (mode : encoding) : List Char → Except String Unit
  | [] => .ok ()
  | '%' :: h1 :: h2 :: rest =>
    if !(ishex h1 && ishex h2) then
      .error ("invalid URL escape " ++ quote ['%', h1, h2])
    else if mode = .encodeHost && unhex h1 < 8 && ['%', h1, h2] ≠ ['%', '2', '5'] then
      .error ("invalid URL escape " ++ quote ['%', h1, h2])
    else if mode = .encodeZone && ['%', h1, h2] ≠ ['%', '2', '5'] &&
        unhex h1 * 16 + unhex h2 ≠ 0x20 &&
        shouldEscape (Char.ofNat (unhex h1 * 16 + unhex h2)) .encodeHost then
      .error ("invalid URL escape " ++ quote ['%', h1, h2])
    else unescapeCheck mode rest
  | '%' :: rest => .error ("invalid URL escape " ++ quote ('%' :: rest))
  | c :: rest =>
    if (mode = .encodeHost || mode = .encodeZone) && c.toNat < 0x80 &&
        shouldEscape c .encodeHost then
      .error ("invalid character " ++ quote [c] ++ " in host name")
    else unescapeCheck mode rest

/-- The second loop of `unescape`: the bytes of the result. -/
def unescapeBytes (mode : encoding) : List Char → List Nat
  | [] => []
  | '%' :: h1 :: h2 :: rest => (unhex h1 * 16 + unhex h2) :: unescapeBytes mode rest
  | c :: rest =>
    if c = '+' && mode = .encodeQueryComponent then 0x20 :: unescapeBytes mode rest
    else utf8Bytes c ++ unescapeBytes mode rest

/-- Function `unescape`. -/
def unescape (s : List Char) (mode : encoding) : Except String (List Char) :=
  match unescapeCheck mode s with
  | .error e => .error e
  | .ok () =>
    if !(s.contains '%') && !(mode = .encodeQueryComponent && s.contains '+') then .ok s
    else .ok (utf8Chars (unescapeBytes mode s))

/-- Function `validOptionalPort`. -/
def validOptionalPort : List Char → Bool
  | [] => true
  | c :: port => c = ':' && port.all isDigit

/-- Function `validUserinfo`. -/
def validUserinfo (s : List Char) : Bool :=
  s.all fun r => isLetter r || isDigit r ||
    r ∈ ['-', '.', '_', ':', '~', '!', '$', '&', '\'', '(', ')', '*', '+', ',', ';', '=',
      '%', '@']

/-- Function `parseHost`. -/
def parseHost (host : List Char) : Except String (List Char) :=
  if host.head? = some '[' then
    match lastIndex ']' host with
    | none => .error "missing ']' in host"
    | some i =>
      if !validOptionalPort (host.drop (i + 1)) then
        .error ("invalid port " ++ quote (host.drop (i + 1)) ++ " after host")
      else
        match index ['%', '2', '5'] (host.take i) with
        | some zone =>
          match unescape (host.take zone) .encodeHost with
          | .error e => .error e
          | .ok host1 =>
            match unescape ((host.take i).drop zone) .encodeZone with
            | .error e => .error e
            | .ok host2 =>
              match unescape (host.drop i) .encodeHost with
              | .error e => .error e
              | .ok host3 => .ok (host1 ++ host2 ++ host3)
        | none => unescape host .encodeHost
  else
    match lastIndex ':' host with
    | some i =>
      if !validOptionalPort (host.drop i) then
        .error ("invalid port " ++ quote (host.drop i) ++ " after host")
      else unescape host .encodeHost
    | none => unescape host .encodeHost

/-- Function `parseAuthority`, for the host it returns. -/
def parseAuthority (authority : List Char) : Except String (List Char) :=
  match lastIndex '@' authority with
  | none => parseHost authority
  | some i =>
    match parseHost (authority.drop (i + 1)) with
    | .error e => .error e
    | .ok host =>
      if !validUserinfo (authority.take i) then .error "net/url: invalid userinfo"
      else if !((authority.take i).contains ':') then
        match unescape (authority.take i) .encodeUserPassword with
        | .error e => .error e
        | .ok _ => .ok host
      else
        match unescape (cut ':' (authority.take i)).1 .encodeUserPassword with
        | .error e => .error e
        | .ok _ =>
          match unescape (cut ':' (authority.take i)).2.1 .encodeUserPassword with
          | .error e => .error e
          | .ok _ => .ok host

/-- Go's `strings.ToLower` on a scheme, whose characters are ASCII. -/
def toLower (s : List Char) : List Char :=
  s.map fun c => if 65 ≤ c.toNat && c.toNat ≤ 90 then Char.ofNat (c.toNat + 32) else c

/-- The authority and the path of `rest`, which starts with `//`. -/
def splitAuthority (rest : List Char) : List Char × List Char :=
  match index ['/'] (rest.drop 2) with
  | some i => ((rest.drop 2).take i, (rest.drop 2).drop i)
  | none => (rest.drop 2, [])

/-- Function `parse` with `viaRequest` false; the error is its message. -/
def parse (rawURL : List Char) : Except String URL :=
  if stringContainsCTLByte rawURL then
    .error "net/url: invalid control character in URL"
  else if rawURL = ['*'] then
    .ok { Scheme := "", Host := "", Path := "*" }
  else
    match getScheme rawURL with
    | .error e => .error e
    | .ok (scheme, afterScheme) =>
      if ((cut '?' afterScheme).1).head? ≠ some '/' && scheme ≠ [] then
        .ok { Scheme := String.mk (toLower scheme), Host := "", Path := "" }
      else if ((cut '?' afterScheme).1).head? ≠ some '/' &&
          (cut '/' (cut '?' afterScheme).1).1.contains ':' then
        .error "first path segment in URL cannot contain colon"
      else if (scheme ≠ [] || !(['/', '/', '/'].isPrefixOf (cut '?' afterScheme).1)) &&
          ['/', '/'].isPrefixOf (cut '?' afterScheme).1 then
        match parseAuthority (splitAuthority (cut '?' afterScheme).1).1 with
        | .error e => .error e
        | .ok host =>
          match unescape (splitAuthority (cut '?' afterScheme).1).2 .encodePath with
          | .error e => .error e
          | .ok path =>
            .ok { Scheme := String.mk (toLower scheme), Host := String.mk host,
                  Path := String.mk path }
      else
        match unescape (cut '?' afterScheme).1 .encodePath with
        | .error e => .error e
        | .ok path =>
          .ok { Scheme := String.mk (toLower scheme), Host := "", Path := String.mk path }

/-- The `*url.Error` that `Parse` returns: it wraps `err` and its message is
`parse "<URL>": <err>`. -/
def parseError (URL : List Char) (err : String) : GoError :=
  .wrapError ("parse " ++ quote URL ++ ": " ++ err) (.errorString err)

/-- Function `Parse`. -/
def Parse (rawURL : String) : Except GoError URL :=
  match parse (cut '#' rawURL.data).1 with
  | .error err => .error (parseError (cut '#' rawURL.data).1 err)
  | .ok url =>
    if (cut '#' rawURL.data).2.1 = [] then .ok url
    else
      match unescape (cut '#' rawURL.data).2.1 .encodeFragment with
      | .error err => .error (parseError rawURL.data err)
      | .ok _ => .ok url

end url

/-! ## Package `api` of `circleci-cli` -/

/-- Go's `strings.HasSuffix(s, "/")`. -/
def hasSlashSuffix (s : String) : Bool :=
  s.data.getLast? = some '/'

/-- Function `api.NewContextRestClient`, with the method `ServerURL` of
`settings.Config` that it calls: a slash is put at the end of `RestEndpoint` if there
is none, `Host` is parsed with `url.Parse`, and `RestEndpoint` is parsed as a reference
to it; the error of either parse is returned. Of the client built the model keeps the
settings it was built from, its fields being private to the package. -/
def NewContextRestClient {H : Type} (config : SettingsConfig H) :
    Except GoError (SettingsConfig H) :=
  let RestEndpoint :=
    if hasSlashSuffix config.RestEndpoint then config.RestEndpoint
    else config.RestEndpoint ++ "/"
  match url.Parse config.Host with
  | .error err => .error err
  | .ok _ =>
    match url.Parse RestEndpoint with
    | .error err => .error err
    | .ok _ => .ok { config with RestEndpoint := RestEndpoint }

/-! ## The collaborators of `New` -/

/-- What decides the fate of a URL without a scheme: `url.Parse` rejects a string that
starts with a colon, and `api.NewContextRestClient` fails when `url.Parse` rejects the
`Host` of its settings. -/
def Env.checksHost {Ctx R H : Type} (env : Env Ctx R H) : Prop :=
  (∀ s : String, s.data.head? = some ':' → ∃ e, env.urlParse s = .error e) ∧
  (∀ (cfg : SettingsConfig H) (e : GoError), env.urlParse cfg.Host = .error e →
    ∃ e', env.NewContextRestClient cfg = .error e')

/-- The environment of `url.Parse` and `api.NewContextRestClient` as embedded above,
and of `retryablehttp.NewClient` with the defaults of its package. The handle of the
REST sub-client is the record of what `rest.New` is given, and the `*http.Client` is
the retrying client it wraps. -/
def sampleEnv : Env (SettingsConfig RetryableClient) (String × String × String) RetryableClient where
  urlParse := url.Parse
  NewClient :=
    { Logger := true, RetryMax := 4, RetryWaitMin := 1000, RetryWaitMax := 30000,
      Backoff := Backoff.DefaultBackoff }
  StandardClient := fun rc => rc
  NewContextRestClient := NewContextRestClient
  restNew := fun root path token => (root, path, token)

/-- The configuration of the end-to-end scenarios. -/
def sampleConfig : Config :=
  { URL := "https://api.example.com/api/v2", Token := "tok", VCS := "github",
    Organization := "acme" }

/-- A client with VCS `github` and the given default organization. -/
def sampleClient (organization : String) : Client Unit Unit :=
  { contexts := (), rest := (), vcs := "github", organization := organization }

end client

namespace client

/-! ## Organization resolution -/

section Resolution

variable {Ctx R : Type}

theorem Organization_of_ne (c : Client Ctx R) {org : String} (h : org ≠ "") :
    c.Organization org = (org, none) := by
  simp [Client.Organization, h]

theorem Organization_empty_of_ne (c : Client Ctx R) (h : c.organization ≠ "") :
    c.Organization "" = (c.organization, none) := by
  simp [Client.Organization, h]

theorem Organization_empty_of_eq (c : Client Ctx R) (h : c.organization = "") :
    c.Organization "" = ("", errorsNew "organization is required") := by
  simp [Client.Organization, h]

theorem Organization_cases (c : Client Ctx R) (org : String) :
    (org ≠ "" ∧ c.Organization org = (org, none)) ∨
    (org = "" ∧ c.organization ≠ "" ∧ c.Organization org = (c.organization, none)) ∨
    (org = "" ∧ c.organization = "" ∧
      c.Organization org = ("", errorsNew "organization is required")) := by
  by_cases h : org = ""
  · subst h
    by_cases h2 : c.organization = ""
    · exact Or.inr (Or.inr ⟨rfl, h2, Organization_empty_of_eq c h2⟩)
    · exact Or.inr (Or.inl ⟨rfl, h2, Organization_empty_of_ne c h2⟩)
  · exact Or.inl ⟨h, Organization_of_ne c h⟩

theorem Slug_of_Organization_ok (c : Client Ctx R) {org o : String} (project : String)
    (h : c.Organization org = (o, none)) :
    c.Slug org project = (c.vcs ++ "/" ++ o ++ "/" ++ project, none) := by
  simp [Client.Slug, h]

theorem Slug_of_Organization_err (c : Client Ctx R) {org o : String} {e : GoError}
    (project : String) (h : c.Organization org = (o, some e)) :
    c.Slug org project = ("", some e) := by
  simp [Client.Slug, h]

end Resolution

/-- C1: for every client, whatever its default organization, and every non-empty
per-call organization `org`, `Client.Organization org` returns exactly `org` and a nil
error. -/
theorem Organization_override_wins {Ctx R : Type} (c : Client Ctx R) (org : String)
    (horg : org ≠ "") :
    c.Organization org = (org, none) :=
  Organization_of_ne c horg

theorem Organization_override_wins_witness :
    ("other-org" : String) ≠ "" ∧
      (sampleClient "acme").Organization "other-org" = ("other-org", none) :=
  ⟨by decide, Organization_override_wins (sampleClient "acme") "other-org" (by decide)⟩

/-- C2: `Client.Organization ""` returns the client's default organization and a nil
error when the default is non-empty, and fails when it is empty; `Organization org`
fails exactly when `org` and the default are both empty, and the failure is the error
made by `errors.New("organization is required")`, returned with the empty string. -/
theorem Organization_default_or_required {Ctx R : Type} (c : Client Ctx R) :
    (c.organization ≠ "" → c.Organization "" = (c.organization, none)) ∧
    (c.organization = "" → (c.Organization "").2 ≠ none) ∧
    (∀ org : String,
      ((c.Organization org).2 ≠ none ↔ org = "" ∧ c.organization = "") ∧
      ((c.Organization org).2 ≠ none →
        c.Organization org = ("", some (GoError.errorString "organization is required")))) := by
  refine ⟨Organization_empty_of_ne c, ?_, ?_⟩
  · intro h
    rw [Organization_empty_of_eq c h]
    simp [errorsNew]
  · intro org
    rcases Organization_cases c org with ⟨h1, h2⟩ | ⟨h1, h2, h3⟩ | ⟨h1, h2, h3⟩
    · rw [h2]; simp [h1]
    · rw [h3]; simp [h2]
    · rw [h3]; simp [h1, h2, errorsNew]

theorem Organization_default_or_required_witness :
    (sampleClient "acme").Organization "" = ("acme", none) ∧
    ((sampleClient "").Organization "").2 ≠ none ∧
    (sampleClient "").Organization "" =
      ("", some (GoError.errorString "organization is required")) :=
  ⟨(Organization_default_or_required (sampleClient "acme")).1 (by decide),
   (Organization_default_or_required (sampleClient "")).2.1 rfl,
   ((Organization_default_or_required (sampleClient "")).2.2 "").2
     ((Organization_default_or_required (sampleClient "")).2.1 rfl)⟩

/-- C9: `Client.Organization` returns either a non-empty organization with a nil error,
or the empty string with the error "organization is required"; the empty string never
comes with a nil error. -/
theorem Organization_nonempty_or_error {Ctx R : Type} (c : Client Ctx R) (org : String) :
    ((c.Organization org).1 ≠ "" ∧ (c.Organization org).2 = none) ∨
    ((c.Organization org).1 = "" ∧
      (c.Organization org).2 = some (GoError.errorString "organization is required")) := by
  rcases Organization_cases c org with ⟨h1, h2⟩ | ⟨_, h2, h3⟩ | ⟨_, _, h3⟩
  · rw [h2]; exact Or.inl ⟨h1, rfl⟩
  · rw [h3]; exact Or.inl ⟨h2, rfl⟩
  · rw [h3]; exact Or.inr ⟨rfl, rfl⟩

/-! ## Slug building -/

section Slugs

variable {Ctx R : Type}

theorem Slug_error_eq (c : Client Ctx R) (org project : String) :
    (c.Slug org project).2 = (c.Organization org).2 := by
  rcases Organization_cases c org with ⟨_, h⟩ | ⟨_, _, h⟩ | ⟨_, _, h⟩ <;>
    simp [Client.Slug, h, errorsNew]

theorem Slug_of_ne (c : Client Ctx R) {org : String} (project : String) (h : org ≠ "") :
    c.Slug org project = (c.vcs ++ "/" ++ org ++ "/" ++ project, none) :=
  Slug_of_Organization_ok c project (Organization_of_ne c h)

theorem Slug_empty_of_ne (c : Client Ctx R) (project : String) (h : c.organization ≠ "") :
    c.Slug "" project = (c.vcs ++ "/" ++ c.organization ++ "/" ++ project, none) :=
  Slug_of_Organization_ok c project (Organization_empty_of_ne c h)

theorem slug_data (a b d : String) :
    (a ++ "/" ++ b ++ "/" ++ d).data = a.data ++ '/' :: (b.data ++ '/' :: d.data) := by
  simp [String.data_append]

theorem splitSlash_slug (a b d : String) (ha : '/' ∉ a.data) (hb : '/' ∉ b.data)
    (hd : '/' ∉ d.data) :
    splitSlash (a ++ "/" ++ b ++ "/" ++ d) = [a, b, d] := by
  have hint : (a ++ "/" ++ b ++ "/" ++ d).data
      = List.intercalate ['/'] [a.data, b.data, d.data] := by
    simp [String.data_append, List.intercalate, List.intersperse]
  have hsplit : (List.intercalate ['/'] [a.data, b.data, d.data]).splitOn '/'
      = [a.data, b.data, d.data] := List.splitOn_intercalate [a.data, b.data, d.data] '/'
    (by
      intro l hl
      simp only [List.mem_cons, List.mem_singleton, List.not_mem_nil, or_false] at hl
      rcases hl with rfl | rfl | rfl <;> assumption)
    (by simp)
  unfold splitSlash
  rw [hint, hsplit]
  rfl

end Slugs

/-- C3: for every client and all strings `org` (non-empty) and `project`, whatever the
default organization, `Client.Slug org project` returns a nil error and exactly
`vcs ++ "/" ++ org ++ "/" ++ project`, `vcs` being the client's VCS identifier: its
characters are those of the three components, unchanged and in order, with one `/`
between them. This holds in particular when `vcs` and `project` are non-empty. -/
theorem Slug_exact_concatenation {Ctx R : Type} (c : Client Ctx R) (org project : String)
    (horg : org ≠ "") :
    c.Slug org project = (c.vcs ++ "/" ++ org ++ "/" ++ project, none) ∧
    (c.Slug org project).1.data = c.vcs.data ++ '/' :: (org.data ++ '/' :: project.data) ∧
    (c.Slug org project).1.length = c.vcs.length + org.length + project.length + 2 := by
  have h := Slug_of_ne c project horg
  refine ⟨h, ?_, ?_⟩
  · rw [h]; exact slug_data _ _ _
  · rw [h]
    show (c.vcs ++ "/" ++ org ++ "/" ++ project).data.length
      = c.vcs.data.length + org.data.length + project.data.length + 2
    rw [slug_data]
    simp only [List.length_append, List.length_cons]
    omega

theorem Slug_exact_concatenation_witness :
    ("other-org" : String) ≠ "" ∧
      (sampleClient "acme").Slug "other-org" "myproj" = ("github/other-org/myproj", none) :=
  ⟨by decide, (Slug_exact_concatenation (sampleClient "acme") "other-org" "myproj" (by decide)).1⟩

/-- C5: the error `Client.Slug org project` returns is always the one
`Client.Organization org` returns, so `Slug` fails exactly when `Organization` fails,
which is exactly when `org` and the default organization are both empty, whatever the
project and the VCS identifier; when it fails, the slug returned is the empty string
and the error is that of `Organization`, unchanged. -/
theorem Slug_fails_iff_Organization_fails {Ctx R : Type} (c : Client Ctx R)
    (org project : String) :
    (c.Slug org project).2 = (c.Organization org).2 ∧
    ((c.Slug org project).2 ≠ none ↔ (c.Organization org).2 ≠ none) ∧
    ((c.Organization org).2 ≠ none → c.Slug org project = ("", (c.Organization org).2)) ∧
    ((c.Slug org project).2 ≠ none ↔ org = "" ∧ c.organization = "") := by
  have herr := Slug_error_eq c org project
  refine ⟨herr, by rw [herr], ?_, ?_⟩
  · intro hfail
    rcases Organization_cases c org with ⟨_, h⟩ | ⟨_, _, h⟩ | ⟨_, _, h⟩
    · rw [h] at hfail; exact absurd rfl hfail
    · rw [h] at hfail; exact absurd rfl hfail
    · rw [h]; exact Slug_of_Organization_err c project h
  · rw [herr]
    rcases Organization_cases c org with ⟨h1, h⟩ | ⟨_, h2, h⟩ | ⟨h1, h2, h⟩
    · rw [h]; simp [h1]
    · rw [h]; simp [h2]
    · rw [h]; simp [h1, h2, errorsNew]

theorem Slug_fails_iff_Organization_fails_witness :
    ((sampleClient "").Organization "").2 ≠ none ∧
      (sampleClient "").Slug "" "myproj" =
        ("", some (GoError.errorString "organization is required")) :=
  ⟨by simp [Client.Organization, sampleClient, errorsNew],
   (Slug_fails_iff_Organization_fails (sampleClient "") "" "myproj").2.2.1
     (by simp [Client.Organization, sampleClient, errorsNew])⟩

/-- C10: on components without `/` the slug splits back into its parts: for every
client whose VCS identifier has no `/` and all `org` (non-empty) and `project` without
`/`, splitting `Slug org project` on `/` gives exactly `[vcs, org, project]`, so two
such triples with the same slug are equal; with components that contain `/`, two
different `(org, project)` pairs give the same slug. -/
theorem Slug_unambiguous_iff_separator_free :
    (∀ {Ctx R : Type} (c : Client Ctx R) (org project : String),
      '/' ∉ c.vcs.data → org ≠ "" → '/' ∉ org.data → '/' ∉ project.data →
      splitSlash (c.Slug org project).1 = [c.vcs, org, project]) ∧
    (∀ {Ctx R : Type} (c c' : Client Ctx R) (org project org' project' : String),
      '/' ∉ c.vcs.data → org ≠ "" → '/' ∉ org.data → '/' ∉ project.data →
      '/' ∉ c'.vcs.data → org' ≠ "" → '/' ∉ org'.data → '/' ∉ project'.data →
      (c.Slug org project).1 = (c'.Slug org' project').1 →
      c.vcs = c'.vcs ∧ org = org' ∧ project = project') ∧
    (∃ org project org' project' : String,
      (org, project) ≠ (org', project') ∧ org ≠ "" ∧ org' ≠ "" ∧
      ((sampleClient "acme").Slug org project).2 = none ∧
      (sampleClient "acme").Slug org project = (sampleClient "acme").Slug org' project') := by
  have hsplit : ∀ {Ctx R : Type} (c : Client Ctx R) (org project : String),
      '/' ∉ c.vcs.data → org ≠ "" → '/' ∉ org.data → '/' ∉ project.data →
      splitSlash (c.Slug org project).1 = [c.vcs, org, project] := by
    intro Ctx R c org project hv ho hos hp
    rw [Slug_of_ne c project ho]
    exact splitSlash_slug _ _ _ hv hos hp
  refine ⟨hsplit, ?_, ?_⟩
  · intro Ctx R c c' org project org' project' hv ho hos hp hv' ho' hos' hp' heq
    have h1 := hsplit c org project hv ho hos hp
    have h2 := hsplit c' org' project' hv' ho' hos' hp'
    rw [heq, h2] at h1
    simp only [List.cons.injEq, and_true] at h1
    exact ⟨h1.1.symm, h1.2.1.symm, h1.2.2.symm⟩
  · exact ⟨"a/b", "c", "a", "b/c", by decide, by decide, by decide, rfl, rfl⟩

theorem Slug_unambiguous_iff_separator_free_witness :
    splitSlash ((sampleClient "acme").Slug "other-org" "myproj").1
      = ["github", "other-org", "myproj"] :=
  Slug_unambiguous_iff_separator_free.1 (sampleClient "acme") "other-org" "myproj"
    (by decide) (by decide) (by decide) (by decide)

/-! ## Construction -/

section Construction

variable {Ctx R H : Type}

theorem New_of_parse_error (env : Env Ctx R H) (config : Config) {e : GoError}
    (h : env.urlParse config.URL = .error e) : New env config = (none, some e) := by
  simp [New, h]

theorem New_client_iff_no_error (env : Env Ctx R H) (config : Config) :
    (New env config).1 = none ↔ (New env config).2 ≠ none := by
  unfold New
  cases env.urlParse config.URL with
  | error e => simp
  | ok u =>
    dsimp only
    split <;> simp

theorem New_some (env : Env Ctx R H) (config : Config) {c : Client Ctx R}
    (h : (New env config).1 = some c) :
    (∃ u, env.urlParse config.URL = .ok u) ∧
      c.vcs = config.VCS ∧ c.organization = config.Organization := by
  unfold New at h
  cases hp : env.urlParse config.URL with
  | error e => rw [hp] at h; simp at h
  | ok u =>
    rw [hp] at h
    dsimp only at h
    split at h
    · simp at h
    · simp only [Option.some.injEq] at h
      subst h
      exact ⟨⟨u, rfl⟩, rfl, rfl⟩

end Construction

section Collaborators

variable {Ctx R H : Type}

theorem parse_leading_colon (cs : List Char) : ∃ e, url.parse (':' :: cs) = .error e := by
  unfold url.parse
  split
  · exact ⟨_, rfl⟩
  · simp [url.getScheme, url.getSchemeFrom, url.isLetter, url.isDigit]

theorem Parse_leading_colon (s : String) (h : s.data.head? = some ':') :
    ∃ e, url.Parse s = .error e := by
  obtain ⟨data⟩ := s
  cases data with
  | nil => simp at h
  | cons c cs =>
    simp only [List.head?_cons, Option.some.injEq] at h
    subst h
    obtain ⟨e, he⟩ := parse_leading_colon (url.cut '#' cs).1
    refine ⟨url.parseError (':' :: (url.cut '#' cs).1) e, ?_⟩
    have hcut : (url.cut '#' (':' :: cs)).1 = ':' :: (url.cut '#' cs).1 := by
      simp [url.cut]
    simp only [url.Parse, hcut, he]

theorem sampleEnv_checksHost : sampleEnv.checksHost := by
  refine ⟨Parse_leading_colon, ?_⟩
  intro cfg e he
  have he' : url.Parse cfg.Host = .error e := he
  exact ⟨e, by simp [sampleEnv, NewContextRestClient, he']⟩

theorem rootURL_head (u : URL) (h : u.Scheme = "") :
    (u.Scheme ++ "://" ++ u.Host).data.head? = some ':' := by
  simp [h, String.data_append]

theorem New_none_of_no_scheme (env : Env Ctx R H) (hc : env.checksHost) (config : Config)
    (hs : ∀ u, env.urlParse config.URL = .ok u → u.Scheme = "") :
    (New env config).1 = none := by
  unfold New
  cases hp : env.urlParse config.URL with
  | error e => rfl
  | ok u =>
    dsimp only
    obtain ⟨e, he⟩ := hc.1 _ (rootURL_head u (hs u hp))
    obtain ⟨e', he'⟩ := hc.2
      { Host := u.Scheme ++ "://" ++ u.Host, RestEndpoint := u.Path, Token := config.Token,
        HTTPClient := env.StandardClient
          { env.NewClient with
            Logger := false
            RetryWaitMin := 800
            RetryWaitMax := 1200
            Backoff := Backoff.LinearJitterBackoff } } e he
    rw [he']

theorem New_some_root (env : Env Ctx R H) (hc : env.checksHost) (config : Config)
    {c : Client Ctx R} (h : (New env config).1 = some c) :
    ∃ u, env.urlParse config.URL = .ok u ∧ u.Scheme ≠ "" ∧
      ∃ root, env.urlParse (u.Scheme ++ "://" ++ u.Host) = .ok root := by
  obtain ⟨⟨u, hu⟩, _, _⟩ := New_some env config h
  refine ⟨u, hu, ?_, ?_⟩
  · intro hs
    have hnone := New_none_of_no_scheme env hc config (fun u' hu' => by
      rw [hu] at hu'
      cases hu'
      exact hs)
    rw [hnone] at h
    cases h
  · cases hr : env.urlParse (u.Scheme ++ "://" ++ u.Host) with
    | ok root => exact ⟨root, rfl⟩
    | error e =>
      exfalso
      obtain ⟨e', he'⟩ := hc.2
        { Host := u.Scheme ++ "://" ++ u.Host, RestEndpoint := u.Path, Token := config.Token,
          HTTPClient := env.StandardClient
            { env.NewClient with
              Logger := false
              RetryWaitMin := 800
              RetryWaitMax := 1200
              Backoff := Backoff.LinearJitterBackoff } } e hr
      unfold New at h
      rw [hu] at h
      dsimp only at h
      rw [he'] at h
      cases h

theorem Parse_empty : url.Parse "" = .ok { Scheme := "", Host := "", Path := "" } := rfl

theorem New_sampleEnv_URL_ne (config : Config) {c : Client _ _}
    (h : (New sampleEnv config).1 = some c) : config.URL ≠ "" := by
  intro hurl
  have hnone := New_none_of_no_scheme sampleEnv sampleEnv_checksHost config (fun u hu => by
    have hu' : url.Parse config.URL = .ok u := hu
    rw [hurl, Parse_empty] at hu'
    cases hu'
    rfl)
  rw [hnone] at h
  cases h

end Collaborators

/-- C7: when `url.Parse` rejects `Config.URL`, `New` returns a nil client and that
error; a client that `New` returns was built from a URL that `url.Parse` accepted; and
`New` returns a nil client exactly when it returns an error. With collaborators that
check the host as `url.Parse` and `api.NewContextRestClient` do, `New` returns a nil
client and an error for a URL in which `url.Parse` finds no scheme, and a client only
for a URL with a scheme whose root `scheme://host` parses too. With these two
collaborators themselves, the empty URL and the URL `api.example.com/api/v2`, whose
scheme is missing, give a nil client and the error
`parse "://": missing protocol scheme`, and no client has an empty URL. -/
theorem New_fails_closed_on_unparsable_URL {Ctx R H : Type} (env : Env Ctx R H)
    (config : Config) :
    (∀ e : GoError, env.urlParse config.URL = .error e → New env config = (none, some e)) ∧
    (∀ c : Client Ctx R, (New env config).1 = some c → ∃ u, env.urlParse config.URL = .ok u) ∧
    ((New env config).1 = none ↔ (New env config).2 ≠ none) ∧
    (env.checksHost → (∀ u, env.urlParse config.URL = .ok u → u.Scheme = "") →
      (New env config).1 = none ∧ (New env config).2 ≠ none) ∧
    (env.checksHost → ∀ c : Client Ctx R, (New env config).1 = some c →
      ∃ u, env.urlParse config.URL = .ok u ∧ u.Scheme ≠ "" ∧
        ∃ root, env.urlParse (u.Scheme ++ "://" ++ u.Host) = .ok root) ∧
    sampleEnv.checksHost ∧
    (config.URL = "" →
      New sampleEnv config = (none, some (.wrapError "parse \"://\": missing protocol scheme"
        (.errorString "missing protocol scheme")))) ∧
    (config.URL = "api.example.com/api/v2" →
      New sampleEnv config = (none, some (.wrapError "parse \"://\": missing protocol scheme"
        (.errorString "missing protocol scheme")))) ∧
    (∀ c, (New sampleEnv config).1 = some c →
      config.URL ≠ "" ∧ ∃ u, url.Parse config.URL = .ok u ∧ u.Scheme ≠ "") := by
  refine ⟨fun _ h => New_of_parse_error env config h, fun _ h => (New_some env config h).1,
    New_client_iff_no_error env config, ?_, fun hc _ h => New_some_root env hc config h,
    sampleEnv_checksHost, ?_, ?_, ?_⟩
  · intro hc hs
    have hnone := New_none_of_no_scheme env hc config hs
    exact ⟨hnone, (New_client_iff_no_error env config).1 hnone⟩
  · intro hurl
    obtain ⟨URL, Token, VCS, Organization⟩ := config
    subst hurl
    rfl
  · intro hurl
    obtain ⟨URL, Token, VCS, Organization⟩ := config
    subst hurl
    rfl
  · intro c h
    obtain ⟨u, hu, hs, _⟩ := New_some_root sampleEnv sampleEnv_checksHost config h
    exact ⟨New_sampleEnv_URL_ne config h, u, hu, hs⟩

theorem New_fails_closed_on_unparsable_URL_witness :
    (New sampleEnv { sampleConfig with URL := "://api.example.com" }).1 = none ∧
    (New sampleEnv { sampleConfig with URL := "" }).1 = none ∧
    (New sampleEnv { sampleConfig with URL := "" }).2 ≠ none ∧
    (New sampleEnv { sampleConfig with URL := "api.example.com/api/v2" }).2 ≠ none :=
  ⟨congrArg Prod.fst
    ((New_fails_closed_on_unparsable_URL sampleEnv
      { sampleConfig with URL := "://api.example.com" }).1 _ rfl),
   ((New_fails_closed_on_unparsable_URL sampleEnv
      { sampleConfig with URL := "" }).2.2.2.1 sampleEnv_checksHost
      (fun u hu => (Except.ok.inj (hu : Except.ok ⟨"", "", ""⟩ = Except.ok u)) ▸ rfl)).1,
   ((New_fails_closed_on_unparsable_URL sampleEnv
      { sampleConfig with URL := "" }).2.2.2.1 sampleEnv_checksHost
      (fun u hu => (Except.ok.inj (hu : Except.ok ⟨"", "", ""⟩ = Except.ok u)) ▸ rfl)).2,
   ((New_fails_closed_on_unparsable_URL sampleEnv
      { sampleConfig with URL := "api.example.com/api/v2" }).2.2.2.1 sampleEnv_checksHost
      (fun u hu => (Except.ok.inj
        (hu : Except.ok ⟨"", "", "api.example.com/api/v2"⟩ = Except.ok u)) ▸ rfl)).2⟩

/-- C8: for every `Config` for which `New` returns a client, the client's
`Slug org project` is `Config.VCS ++ "/" ++ org ++ "/" ++ project` when `org` is
non-empty and `Config.VCS ++ "/" ++ Config.Organization ++ "/" ++ project` when `org`
is empty and `Config.Organization` is not, both with a nil error; and two
configurations with the same `VCS` and `Organization`, whatever their `URL` and `Token`
and whatever the collaborators, give clients with the same `Slug org project`. -/
theorem New_Slug_from_VCS_and_Organization {Ctx R H : Type} (env : Env Ctx R H)
    (config : Config) (c : Client Ctx R) (hnew : (New env config).1 = some c)
    (org project : String) :
    (org ≠ "" → c.Slug org project = (config.VCS ++ "/" ++ org ++ "/" ++ project, none)) ∧
    (org = "" → config.Organization ≠ "" →
      c.Slug org project
        = (config.VCS ++ "/" ++ config.Organization ++ "/" ++ project, none)) ∧
    (∀ {Ctx' R' H' : Type} (env' : Env Ctx' R' H') (config' : Config) (c' : Client Ctx' R'),
      (New env' config').1 = some c' → config'.VCS = config.VCS →
      config'.Organization = config.Organization →
      c'.Slug org project = c.Slug org project) := by
  obtain ⟨_, hv, ho⟩ := New_some env config hnew
  refine ⟨?_, ?_, ?_⟩
  · intro horg
    rw [← hv]
    exact Slug_of_ne c project horg
  · intro horg hdef
    subst horg
    rw [← hv, ← ho]
    exact Slug_empty_of_ne c project (ho ▸ hdef)
  · intro Ctx' R' H' env' config' c' hnew' hv' ho'
    obtain ⟨_, hcv, hco⟩ := New_some env' config' hnew'
    simp only [Client.Slug, Client.Organization, hcv, hco, hv, ho, hv', ho']

theorem New_Slug_from_VCS_and_Organization_witness :
    ∃ c, (New sampleEnv sampleConfig).1 = some c ∧
      c.Slug "" "myproj" = ("github/acme/myproj", none) ∧
      c.Slug "other-org" "myproj" = ("github/other-org/myproj", none) :=
  ⟨_, rfl,
   (New_Slug_from_VCS_and_Organization sampleEnv sampleConfig _ rfl "" "myproj").2.1 rfl
     (by decide),
   (New_Slug_from_VCS_and_Organization sampleEnv sampleConfig _ rfl "other-org" "myproj").1
     (by decide)⟩

/-! ## Error classification -/

section Classification

theorem httpErrorsIn_append (l₁ l₂ : List GoError) :
    httpErrorsIn (l₁ ++ l₂) = httpErrorsIn l₁ ++ httpErrorsIn l₂ := by
  induction l₁ with
  | nil => rfl
  | cons e l ih => cases e <;> simp [httpErrorsIn, ih]

theorem mem_httpErrorsIn (h : HTTPError) (l : List GoError) :
    h ∈ httpErrorsIn l ↔ GoError.httpError h ∈ l := by
  induction l with
  | nil => simp [httpErrorsIn]
  | cons e l ih => cases e <;> simp [httpErrorsIn, ih, eq_comm]

theorem firstMatch_append (t : Option HTTPError) (l₁ l₂ : List HTTPError) :
    firstMatch t (l₁ ++ l₂) =
      if (firstMatch t l₁).1 then (true, (firstMatch t l₁).2)
      else firstMatch (firstMatch t l₁).2 l₂ := by
  cases l₁ <;> simp [firstMatch]

theorem firstMatch_true_iff (t : Option HTTPError) (l : List HTTPError) (h : HTTPError) :
    firstMatch t l = (true, some h) ↔ l.head? = some h := by
  cases l <;> simp [firstMatch]

theorem firstMatch_ne_nil (t : Option HTTPError) (l : List HTTPError) :
    firstMatch t l ≠ (true, none) := by
  cases l <;> simp [firstMatch]

mutual
theorem asTarget_plain (e : GoError) (t : Option HTTPError)
    (hp : e.tree.all GoError.plainNode = true) :
    e.asTarget t = firstMatch t (httpErrorsIn e.tree) := by
  cases e with
  | errorString s => simp [GoError.asTarget, GoError.tree, httpErrorsIn, firstMatch]
  | httpError h => simp [GoError.asTarget, GoError.tree, httpErrorsIn, firstMatch]
  | nilHTTPError => simp [GoError.tree, GoError.plainNode] at hp
  | wrapError msg err =>
    simp only [GoError.tree, List.all_cons, Bool.and_eq_true] at hp
    simp only [GoError.asTarget, GoError.tree, httpErrorsIn]
    exact asTarget_plain err t hp.2
  | joinError errs =>
    simp only [GoError.tree, List.all_cons, Bool.and_eq_true] at hp
    simp only [GoError.asTarget, GoError.tree, httpErrorsIn]
    exact asTargetList_plain errs t hp.2
  | asError As errs => simp [GoError.tree, GoError.plainNode] at hp
theorem asTargetList_plain (es : List GoError) (t : Option HTTPError)
    (hp : (GoError.treeList es).all GoError.plainNode = true) :
    GoError.asTargetList es t = firstMatch t (httpErrorsIn (GoError.treeList es)) := by
  cases es with
  | nil => simp [GoError.asTargetList, GoError.treeList, httpErrorsIn, firstMatch]
  | cons e rest =>
    simp only [GoError.treeList, List.all_append, Bool.and_eq_true] at hp
    simp only [GoError.asTargetList, GoError.treeList, httpErrorsIn_append, firstMatch_append]
    rw [asTarget_plain e t hp.1, asTargetList_plain rest _ hp.2]
end

mutual
theorem asTarget_inert (e : GoError) (t : Option HTTPError)
    (hp : e.tree.all GoError.inertNode = true) :
    e.asTarget t = (false, t) := by
  cases e with
  | errorString s => simp [GoError.asTarget]
  | httpError h => simp [GoError.tree, GoError.inertNode] at hp
  | nilHTTPError => simp [GoError.tree, GoError.inertNode] at hp
  | wrapError msg err =>
    simp only [GoError.tree, List.all_cons, Bool.and_eq_true] at hp
    simp only [GoError.asTarget]
    exact asTarget_inert err t hp.2
  | joinError errs =>
    simp only [GoError.tree, List.all_cons, Bool.and_eq_true] at hp
    simp only [GoError.asTarget]
    exact asTargetList_inert errs t hp.2
  | asError As errs => simp [GoError.tree, GoError.inertNode] at hp
theorem asTargetList_inert (es : List GoError) (t : Option HTTPError)
    (hp : (GoError.treeList es).all GoError.inertNode = true) :
    GoError.asTargetList es t = (false, t) := by
  cases es with
  | nil => simp [GoError.asTargetList]
  | cons e rest =>
    simp only [GoError.treeList, List.all_append, Bool.and_eq_true] at hp
    simp only [GoError.asTargetList]
    rw [asTarget_inert e t hp.1]
    simpa using asTargetList_inert rest t hp.2
end

theorem treeList_append (l₁ l₂ : List GoError) :
    GoError.treeList (l₁ ++ l₂) = GoError.treeList l₁ ++ GoError.treeList l₂ := by
  induction l₁ with
  | nil => simp [GoError.treeList]
  | cons e l ih => simp [GoError.treeList, ih]

theorem asTargetList_append (l₁ l₂ : List GoError) (t : Option HTTPError) :
    GoError.asTargetList (l₁ ++ l₂) t =
      if (GoError.asTargetList l₁ t).1 then (true, (GoError.asTargetList l₁ t).2)
      else GoError.asTargetList l₂ (GoError.asTargetList l₁ t).2 := by
  induction l₁ generalizing t with
  | nil => simp [GoError.asTargetList]
  | cons e l ih =>
    simp only [List.cons_append, GoError.asTargetList]
    by_cases h : (e.asTarget t).1 = true
    · simp [h]
    · simp [h, ih]

theorem errorsAs_plain (err : error) (hp : plainTree err = true) :
    errorsAs err none = firstMatch none (httpErrorsIn (errorTree err)) := by
  cases err with
  | none => rfl
  | some e => exact asTarget_plain e none hp

theorem isNotFound_iff_errorsAs (err : error) :
    isNotFound err = some true ↔ ∃ h, errorsAs err none = (true, some h) ∧ h.Code = 404 := by
  unfold isNotFound
  rcases hr : errorsAs err none with ⟨b, p⟩
  cases b with
  | false => simp
  | true =>
    cases p with
    | none => simp
    | some h => by_cases hc : h.Code = 404 <;> simp [hc]

theorem isNotFound_panics_iff (err : error) :
    isNotFound err = none ↔ errorsAs err none = (true, none) := by
  unfold isNotFound
  rcases hr : errorsAs err none with ⟨b, p⟩
  cases b with
  | false => simp
  | true =>
    cases p with
    | none => simp
    | some h => by_cases hc : h.Code = 404 <;> simp [hc]

theorem isNotFound_iff_head (err : error) (hp : plainTree err = true) :
    isNotFound err = some true ↔
      ∃ h, (httpErrorsIn (errorTree err)).head? = some h ∧ h.Code = 404 := by
  rw [isNotFound_iff_errorsAs, errorsAs_plain err hp]
  simp only [firstMatch_true_iff]

theorem containsNotFound_of_isNotFound (err : error) (hp : plainTree err = true)
    (h : isNotFound err = some true) : containsNotFound err := by
  obtain ⟨x, hx, hc⟩ := (isNotFound_iff_head err hp).1 h
  exact ⟨x, (mem_httpErrorsIn x _).1 (List.mem_of_mem_head? hx), hc⟩

theorem isNotFound_of_containsNotFound (err : error) (hp : plainTree err = true)
    (hone : (httpErrorsIn (errorTree err)).length ≤ 1) (h : containsNotFound err) :
    isNotFound err = some true := by
  obtain ⟨x, hx, hc⟩ := h
  have hmem := (mem_httpErrorsIn x _).2 hx
  refine (isNotFound_iff_head err hp).2 ⟨x, ?_, hc⟩
  match hl : httpErrorsIn (errorTree err), hone, hmem with
  | [y], _, hm => simp only [List.mem_singleton] at hm; simp [hm]
  | _ :: _ :: _, h2, _ => simp at h2

theorem isChain_plain_and_length :
    (e : GoError) → e.isChain = true →
      e.tree.all GoError.plainNode = true ∧ (httpErrorsIn e.tree).length ≤ 1
  | .errorString _, _ => by simp [GoError.tree, httpErrorsIn, GoError.plainNode]
  | .httpError _, _ => by simp [GoError.tree, httpErrorsIn, GoError.plainNode]
  | .nilHTTPError, h => by simp [GoError.isChain] at h
  | .wrapError _ err, h => by
    have ih := isChain_plain_and_length err (by simpa [GoError.isChain] using h)
    simp only [GoError.tree, httpErrorsIn, List.all_cons, GoError.plainNode, Bool.true_and]
    exact ih
  | .joinError _, h => by simp [GoError.isChain] at h
  | .asError _ _, h => by simp [GoError.isChain] at h

theorem errorsAs_apply (layer : Layer) (hin : layer.inert = true) (err : error)
    (t : Option HTTPError) :
    errorsAs (layer.apply err) t = errorsAs err t := by
  cases layer with
  | wrap msg => cases err <;> simp [Layer.apply, errorsAs, GoError.asTarget]
  | join before after =>
    simp only [Layer.inert, treeList_append, List.all_append, Bool.and_eq_true] at hin
    have hb := fun t => asTargetList_inert before t hin.1
    have ha := fun t => asTargetList_inert after t hin.2
    cases err with
    | none =>
      simp only [Layer.apply]
      have : GoError.asTargetList (before ++ after) t = (false, t) := by
        rw [asTargetList_append, hb]; simp [ha]
      split
      · rfl
      · simp only [errorsAs, GoError.asTarget]
        exact this
    | some e =>
      simp only [Layer.apply, errorsAs, GoError.asTarget]
      rw [asTargetList_append, hb]
      simp only [GoError.asTargetList, ha]
      by_cases h : (e.asTarget t).1 = true
      · simp [h]; rw [← h]
      · simp [h]
        have : (e.asTarget t).1 = false := by simpa using h
        rw [← this]

theorem errorsAs_wrapLayers (layers : List Layer) (hin : ∀ layer ∈ layers, layer.inert = true)
    (err : error) (t : Option HTTPError) :
    errorsAs (wrapLayers layers err) t = errorsAs err t := by
  induction layers with
  | nil => rfl
  | cons layer layers ih =>
    rw [wrapLayers, errorsAs_apply layer (hin layer (List.mem_cons_self _ _))]
    exact ih (fun l hl => hin l (List.mem_cons_of_mem _ hl))

theorem isNotFound_wrapLayers (layers : List Layer)
    (hin : ∀ layer ∈ layers, layer.inert = true) (err : error) :
    isNotFound (wrapLayers layers err) = isNotFound err := by
  simp only [isNotFound, errorsAs_wrapLayers layers hin]

end Classification

/-- C4, as the claim states it, fails, on three errors. For the multi-error that joins
an `HTTPError` with code 500 and one with code 404, the error tree contains an
`HTTPError` whose code is 404 and `isNotFound` is false, because `errors.As` stops at
the first `HTTPError` it meets. For an error whose own `As` method answers true and
stores an `HTTPError` with code 404, `isNotFound` is true and the tree contains no
`HTTPError`. For a nil `*rest.HTTPError` held in the interface, `isNotFound` returns
nothing: it panics. -/
theorem isNotFound_false_on_tree_with_404 :
    (containsNotFound (some (.joinError [.httpError ⟨500⟩, .httpError ⟨404⟩])) ∧
      isNotFound (some (.joinError [.httpError ⟨500⟩, .httpError ⟨404⟩])) = some false) ∧
    (¬ containsNotFound (some (.asError (fun _ => (true, some ⟨404⟩)) [])) ∧
      isNotFound (some (.asError (fun _ => (true, some ⟨404⟩)) [])) = some true) ∧
    (¬ containsNotFound (some .nilHTTPError) ∧ isNotFound (some .nilHTTPError) = none) :=
  ⟨⟨⟨⟨404⟩, by simp [errorTree, GoError.tree, GoError.treeList], rfl⟩, rfl⟩,
   ⟨by simp [containsNotFound, errorTree, GoError.tree, GoError.treeList], rfl⟩,
   ⟨by simp [containsNotFound, errorTree, GoError.tree], rfl⟩⟩

/-- C4, amended: `isNotFound err` returns true exactly when `errors.As` answers true
and leaves in `httpError` a non-nil `HTTPError` with status code 404, and it panics
exactly when `errors.As` answers true and leaves `httpError` nil. When no error of the
tree of `err` has an `As` method or is a nil `*rest.HTTPError`, `isNotFound err`
returns, and it returns true exactly when the first `HTTPError` of the tree, in the
order `errors.As` visits it, has status code 404; it is then true only if the tree
contains an `HTTPError` with code 404, and for a tree with at most one `HTTPError`, as
every chain of single-`Unwrap` wrappers is, exactly if it does. It returns false for
nil, for a plain error and for an `HTTPError` with code 500, and true for one with
code 404. -/
theorem isNotFound_iff_first_HTTPError_404 (err : error) :
    (isNotFound err = some true ↔
      ∃ h, errorsAs err none = (true, some h) ∧ h.Code = 404) ∧
    (isNotFound err = none ↔ errorsAs err none = (true, none)) ∧
    (plainTree err = true → isNotFound err ≠ none) ∧
    (plainTree err = true →
      (isNotFound err = some true ↔
        ∃ h, (httpErrorsIn (errorTree err)).head? = some h ∧ h.Code = 404)) ∧
    (plainTree err = true → isNotFound err = some true → containsNotFound err) ∧
    (plainTree err = true → (httpErrorsIn (errorTree err)).length ≤ 1 →
      (isNotFound err = some true ↔ containsNotFound err)) ∧
    ((∀ e, err = some e → e.isChain = true) →
      (isNotFound err = some true ↔ containsNotFound err)) ∧
    isNotFound none = some false ∧
    (∀ text : String, isNotFound (errorsNew text) = some false) ∧
    isNotFound (some (.httpError ⟨500⟩)) = some false ∧
    isNotFound (some (.httpError ⟨404⟩)) = some true := by
  have hone : plainTree err = true → (httpErrorsIn (errorTree err)).length ≤ 1 →
      (isNotFound err = some true ↔ containsNotFound err) := fun hp h =>
    ⟨containsNotFound_of_isNotFound err hp, isNotFound_of_containsNotFound err hp h⟩
  refine ⟨isNotFound_iff_errorsAs err, isNotFound_panics_iff err, ?_,
    isNotFound_iff_head err, containsNotFound_of_isNotFound err, hone, ?_,
    rfl, fun _ => rfl, rfl, rfl⟩
  · intro hp hnone
    rw [isNotFound_panics_iff, errorsAs_plain err hp] at hnone
    exact firstMatch_ne_nil _ _ hnone
  · intro hchain
    cases err with
    | none => exact hone rfl (by simp [errorTree, httpErrorsIn])
    | some e =>
      have h := isChain_plain_and_length e (hchain e rfl)
      exact hone h.1 h.2

theorem isNotFound_iff_first_HTTPError_404_witness :
    isNotFound (some (.wrapError "read project" (.httpError ⟨404⟩))) = some true ∧
    containsNotFound (some (.wrapError "read project" (.httpError ⟨404⟩))) :=
  ⟨rfl,
   (isNotFound_iff_first_HTTPError_404
      (some (.wrapError "read project" (.httpError ⟨404⟩)))).2.2.2.2.1 rfl rfl⟩

/-- C6, as the claim states it, fails, on two layers that are not `HTTPError`s placed
around an `HTTPError` with code 404, for which `isNotFound` is true. Under the
multi-error that joins an `HTTPError` with code 500 before it, and under a wrapper
whose own `As` method answers true and stores an `HTTPError` with code 500,
`isNotFound` is false. -/
theorem isNotFound_depends_on_layer :
    isNotFound (some (.httpError ⟨404⟩)) = some true ∧
    isNotFound ((Layer.join [.httpError ⟨500⟩] []).apply (some (.httpError ⟨404⟩)))
      = some false ∧
    isNotFound (some (.asError (fun _ => (true, some ⟨500⟩)) [.httpError ⟨404⟩]))
      = some false :=
  ⟨rfl, rfl, rfl⟩

/-- C6, amended: for every error `e` and every number `n ≥ 1` of wrapping layers
placed around it, each a wrapper with a single `Unwrap` or a multi-error, none an
`HTTPError`, none with an `As` method, and the other errors a multi-error brings
containing no `*rest.HTTPError` and no error with an `As` method, `isNotFound` of the
wrapped error does what `isNotFound e` does; in particular an `HTTPError` with code
404 under such layers is still classified as not found. -/
theorem isNotFound_wrapping_depth (e : error) (n : Nat) (layers : List Layer)
    (hn : 1 ≤ n) (hlen : layers.length = n) (hin : ∀ layer ∈ layers, layer.inert = true) :
    isNotFound (wrapLayers layers e) = isNotFound e ∧
    isNotFound (wrapLayers layers (some (.httpError ⟨404⟩))) = some true := by
  subst hlen
  obtain ⟨layer, rest, rfl⟩ := List.exists_cons_of_length_pos hn
  exact ⟨isNotFound_wrapLayers _ hin e, by rw [isNotFound_wrapLayers _ hin]; rfl⟩

theorem isNotFound_wrapping_depth_witness :
    isNotFound (wrapLayers
      [Layer.wrap "create project", Layer.join [.errorString "rest call"] []]
      (some (.httpError ⟨404⟩))) = some true ∧
    isNotFound (wrapLayers
      [Layer.wrap "create project", Layer.join [.errorString "rest call"] []]
      (some (.httpError ⟨500⟩))) = some false :=
  ⟨(isNotFound_wrapping_depth (some (.httpError ⟨500⟩)) 2
      [Layer.wrap "create project", Layer.join [.errorString "rest call"] []]
      (by decide) rfl (by decide)).2,
   ((isNotFound_wrapping_depth (some (.httpError ⟨500⟩)) 2
      [Layer.wrap "create project", Layer.join [.errorString "rest call"] []]
      (by decide) rfl (by decide)).1).trans rfl⟩

end client
